import Mathlib

/-
Verification of the Raqote-Deno drawing facade (src/mod/{types,ops,lib,test}.ts).

The TypeScript code is a thin client that encodes drawing commands and sends
them over a synchronous byte channel (Deno plugin dispatch).  This file embeds
the data model (types.ts), the argument normalizer and the per-operation
dispatch functions (ops.ts), the surface-handle registry and facade (lib.ts /
the extended facade file), and the text codec (TextEncoder / TextDecoder with
UTF-8, as specified by the WHATWG Encoding standard, which is the behaviour of
the platform objects bound at ops.ts:42-43).

JavaScript numbers are modelled as Int: no claim in scope performs arithmetic
on coordinate values, they are only stored, defaulted and forwarded.
JavaScript `undefined`/`null` optional fields are modelled as Option.
-/

/- ## Data model (src/mod/types.ts) -/

/-- types.ts `PathType`: the tag of a path step. -/
inductive PathType
  | Move | Quad | Cubic | Arc | Rect | Line | Close
  deriving DecidableEq

/-- types.ts `SourceType`: the tag of a paint source. -/
inductive SourceType
  | Solid | LinearGradient | RadialGradient | TwoCircleRadialGradient
  deriving DecidableEq

/-- types.ts `enum Spread`. -/
inductive Spread
  | Pad | Reflect | Repeat
  deriving DecidableEq

/-- types.ts `enum LineCap`. -/
inductive LineCap
  | Round | Butt | Square
  deriving DecidableEq

/-- types.ts `enum LineJoin`. -/
inductive LineJoin
  | Round | Miter | Bevel
  deriving DecidableEq

/-- types.ts `interface Color`: four components. -/
structure Color where
  a : Int
  r : Int
  g : Int
  b : Int
  deriving DecidableEq

/-- types.ts `interface GradientStop`. -/
structure GradientStop where
  position : Int
  color : Color
  deriving DecidableEq

/-- types.ts `interface Gradient`: an ordered list of stops. -/
structure Gradient where
  stops : List GradientStop
  deriving DecidableEq

/-- types.ts `interface ISource`: the paint-source record.  All fields other
than the tag are optional (`?` in TypeScript), modelled as Option. -/
structure ISource where
  src_type : SourceType
  color : Option Color := none
  start : Option (List Int) := none
  «end» : Option (List Int) := none
  center : Option (List Int) := none
  radius : Option Int := none
  center2 : Option (List Int) := none
  radius2 : Option Int := none
  spread : Option Spread := none
  gradient : Option Gradient := none
  deriving DecidableEq

/-- types.ts `interface Path`: one path step; the four numeric-array fields
are optional.  (Named `PathStep` here because Mathlib already declares `Path`.) -/
structure PathStep where
  path_type : PathType
  linear : Option (List Int) := none
  quad : Option (List Int) := none
  cubic : Option (List Int) := none
  arc : Option (List Int) := none
  deriving DecidableEq

/-- types.ts `interface PathData`: an ordered sequence of steps. -/
structure PathData where
  steps : List PathStep
  deriving DecidableEq

/-- types.ts `interface StrokeStyle`: no optional fields. -/
structure StrokeStyle where
  width : Int
  cap : LineCap
  join : LineJoin
  miter_limit : Int
  dash_array : List Int
  dash_offset : Int
  deriving DecidableEq

/- ## Argument normalizer (src/mod/ops.ts, `_fix_src` lines 45-56 and
`_fix_path` lines 58-68)

Each line of `_fix_src` is `if (!src.f) src.f = default;`.  JavaScript `!x` is
true exactly when `x` is falsy.  For the object-, array- and enum-string-valued
fields (color, start, end, center, center2, spread, gradient) a present value
is an object, an array, or one of the non-empty strings "Pad"/"Reflect"/
"Repeat", all of which are truthy, so `!x` holds exactly when the field is
absent: `fixOpt`.  For the numeric fields (radius, radius2) `!x` also holds
for the value 0; since the replacement is 0 itself, the branch taken at 0 is
value-preserving: `fixNum`. -/

/-- Replace an absent field by the default (a present value is truthy). -/
def fixOpt (o : Option α) (d : α) : Option α :=
  match o with
  | none => some d
  | some x => some x

/-- Replace an absent or zero numeric field by 0 (`!x` is true for 0). -/
def fixNum (o : Option Int) : Option Int :=
  match o with
  | none => some 0
  | some x => if x = 0 then some 0 else some x

/-- ops.ts lines 45-56, `_fix_src`: fill every absent optional field of a
paint source with its default. -/
def _fix_src (s : ISource) : ISource :=
  { s with
    color := fixOpt s.color ⟨0, 0, 0, 0⟩
    start := fixOpt s.start [0, 0]
    «end» := fixOpt s.«end» [0, 0]
    center := fixOpt s.center [0, 0]
    radius := fixNum s.radius
    center2 := fixOpt s.center2 [0, 0]
    radius2 := fixNum s.radius2
    spread := fixOpt s.spread Spread.Pad
    gradient := fixOpt s.gradient ⟨[]⟩ }

/-- ops.ts lines 60-65, the body of the `map` callback in `_fix_path`: fill
the absent numeric-array fields of one step with zero arrays of arity
2 / 4 / 6 / 5. -/
def _fix_step (st : PathStep) : PathStep :=
  { st with
    linear := fixOpt st.linear [0, 0]
    quad := fixOpt st.quad [0, 0, 0, 0]
    cubic := fixOpt st.cubic [0, 0, 0, 0, 0, 0]
    arc := fixOpt st.arc [0, 0, 0, 0, 0] }

/-- ops.ts lines 58-68, `_fix_path`: normalize every step of a path. -/
def _fix_path (p : PathData) : PathData :=
  ⟨p.steps.map _fix_step⟩

/-- JavaScript truthiness of an optional numeric field: present and nonzero. -/
def truthyNum (o : Option Int) : Bool :=
  match o with
  | none => false
  | some x => decide (x ≠ 0)

/-- All optional fields of a paint source are populated with truthy values. -/
def srcAllTruthy (s : ISource) : Bool :=
  s.color.isSome && s.start.isSome && s.«end».isSome && s.center.isSome &&
    truthyNum s.radius && s.center2.isSome && truthyNum s.radius2 &&
    s.spread.isSome && s.gradient.isSome

/-- All four array fields of a path step are populated (arrays are truthy). -/
def stepAllTruthy (st : PathStep) : Bool :=
  st.linear.isSome && st.quad.isSome && st.cubic.isSome && st.arc.isSome

/-- All steps of a path are fully populated. -/
def pathAllTruthy (p : PathData) : Bool :=
  p.steps.all stepAllTruthy

/- ### Normalizer lemmas -/

theorem fixOpt_eq_getD (o : Option α) (d : α) : fixOpt o d = some (o.getD d) := by
  cases o <;> rfl

theorem fixNum_eq_getD (o : Option Int) : fixNum o = some (o.getD 0) := by
  cases o with
  | none => rfl
  | some x =>
    by_cases h : x = 0 <;> simp [fixNum, h]

theorem fixOpt_idem (o : Option α) (d : α) : fixOpt (fixOpt o d) d = fixOpt o d := by
  cases o <;> rfl

theorem fixNum_idem (o : Option Int) : fixNum (fixNum o) = fixNum o := by
  cases o with
  | none => rfl
  | some x =>
    by_cases h : x = 0 <;> simp [fixNum, h]

theorem fixOpt_of_isSome (o : Option α) (d : α) (h : o.isSome = true) : fixOpt o d = o := by
  cases o with
  | none => simp at h
  | some x => rfl

theorem fixNum_of_truthy (o : Option Int) (h : truthyNum o = true) : fixNum o = o := by
  cases o with
  | none => simp [truthyNum] at h
  | some x =>
    simp [truthyNum] at h
    simp [fixNum, h]

theorem fix_step_eq (st : PathStep) :
    _fix_step st = ⟨st.path_type, some (st.linear.getD [0, 0]),
      some (st.quad.getD [0, 0, 0, 0]), some (st.cubic.getD [0, 0, 0, 0, 0, 0]),
      some (st.arc.getD [0, 0, 0, 0, 0])⟩ := by
  obtain ⟨t, l, q, c, a⟩ := st
  simp [_fix_step, fixOpt_eq_getD]

/-- C6: normalizing a paint source with only the tag `Solid` and a color set
leaves the color unchanged and fills every other optional field with its
documented default (points [0,0], radii 0, spread Pad, empty gradient); in
general, for any subset of populated optional fields, `_fix_src` returns the
fully-populated record whose absent fields got those defaults and whose
present fields are preserved (a present numeric 0 coincides with its
default, so the truthiness test never changes a present value). -/
theorem claim6_src_defaults :
    (∀ c : Color,
      _fix_src { src_type := SourceType.Solid, color := some c } =
        { src_type := SourceType.Solid, color := some c, start := some [0, 0],
          «end» := some [0, 0], center := some [0, 0], radius := some 0,
          center2 := some [0, 0], radius2 := some 0, spread := some Spread.Pad,
          gradient := some ⟨[]⟩ }) ∧
    (∀ s : ISource,
      _fix_src s =
        { src_type := s.src_type, color := some (s.color.getD ⟨0, 0, 0, 0⟩),
          start := some (s.start.getD [0, 0]), «end» := some (s.«end».getD [0, 0]),
          center := some (s.center.getD [0, 0]), radius := some (s.radius.getD 0),
          center2 := some (s.center2.getD [0, 0]), radius2 := some (s.radius2.getD 0),
          spread := some (s.spread.getD Spread.Pad),
          gradient := some (s.gradient.getD ⟨[]⟩) }) := by
  constructor
  · intro c
    rfl
  · intro s
    obtain ⟨t, c, st, en, ce, r, c2, r2, sp, g⟩ := s
    simp [_fix_src, fixOpt_eq_getD, fixNum_eq_getD]

/-- C7: path normalization preserves the number, order and tags of the steps
exactly (the lists of tags before and after agree elementwise), each step is
rebuilt with its absent array fields zero-filled at the fixed arities
2 / 4 / 6 / 5, and in particular a `Line` step carrying only `linear` comes
out with `quad`, `cubic`, `arc` zero-filled to lengths 4, 6 and 5. -/
theorem claim7_path_normalization :
    (∀ p : PathData,
      (_fix_path p).steps.map PathStep.path_type = p.steps.map PathStep.path_type ∧
      (_fix_path p).steps.length = p.steps.length) ∧
    (∀ st : PathStep,
      _fix_step st = ⟨st.path_type, some (st.linear.getD [0, 0]),
        some (st.quad.getD [0, 0, 0, 0]), some (st.cubic.getD [0, 0, 0, 0, 0, 0]),
        some (st.arc.getD [0, 0, 0, 0, 0])⟩) ∧
    (∀ l : List Int,
      _fix_path ⟨[⟨PathType.Line, some l, none, none, none⟩]⟩ =
        ⟨[⟨PathType.Line, some l, some [0, 0, 0, 0], some [0, 0, 0, 0, 0, 0],
          some [0, 0, 0, 0, 0]⟩]⟩) := by
  refine ⟨fun p => ⟨?_, ?_⟩, fix_step_eq, fun l => rfl⟩
  · simp only [_fix_path, List.map_map]
    exact List.map_congr_left fun st _ => rfl
  · simp [_fix_path]

/-- C10: normalization is idempotent on paint sources and paths, and a record
all of whose optional fields are already populated with truthy values is
returned unchanged. -/
theorem claim10_idempotent :
    (∀ s : ISource, _fix_src (_fix_src s) = _fix_src s) ∧
    (∀ p : PathData, _fix_path (_fix_path p) = _fix_path p) ∧
    (∀ s : ISource, srcAllTruthy s = true → _fix_src s = s) ∧
    (∀ p : PathData, pathAllTruthy p = true → _fix_path p = p) := by
  refine ⟨?_, ?_, ?_, ?_⟩
  · intro s
    obtain ⟨t, c, st, en, ce, r, c2, r2, sp, g⟩ := s
    simp [_fix_src, fixOpt_idem, fixNum_idem]
  · intro p
    obtain ⟨steps⟩ := p
    simp only [_fix_path, List.map_map, PathData.mk.injEq]
    refine List.map_congr_left fun st _ => ?_
    obtain ⟨t, l, q, c, a⟩ := st
    simp [Function.comp, _fix_step, fixOpt_idem]
  · intro s h
    obtain ⟨t, c, st, en, ce, r, c2, r2, sp, g⟩ := s
    simp only [srcAllTruthy, Bool.and_eq_true] at h
    obtain ⟨⟨⟨⟨⟨⟨⟨⟨h1, h2⟩, h3⟩, h4⟩, h5⟩, h6⟩, h7⟩, h8⟩, h9⟩ := h
    simp [_fix_src, fixOpt_of_isSome _ _ h1, fixOpt_of_isSome _ _ h2,
      fixOpt_of_isSome _ _ h3, fixOpt_of_isSome _ _ h4, fixNum_of_truthy _ h5,
      fixOpt_of_isSome _ _ h6, fixNum_of_truthy _ h7, fixOpt_of_isSome _ _ h8,
      fixOpt_of_isSome _ _ h9]
  · intro p h
    obtain ⟨steps⟩ := p
    simp only [pathAllTruthy, List.all_eq_true] at h
    simp only [_fix_path, PathData.mk.injEq]
    have : ∀ st ∈ steps, _fix_step st = st := by
      intro st hst
      have h4 := h st hst
      obtain ⟨t, l, q, c, a⟩ := st
      simp only [stepAllTruthy, Bool.and_eq_true] at h4
      simp [_fix_step, fixOpt_of_isSome, h4.1.1.1, h4.1.1.2, h4.1.2, h4.2]
    calc steps.map _fix_step = steps.map id := List.map_congr_left fun st hst => this st hst
    _ = steps := List.map_id steps

/-- A fully-populated, all-truthy paint source used to instantiate C10. -/
def exTruthySrc : ISource :=
  { src_type := SourceType.RadialGradient, color := some ⟨1, 2, 3, 4⟩,
    start := some [1, 1], «end» := some [2, 2], center := some [150, 150],
    radius := some 128, center2 := some [3, 3], radius2 := some 7,
    spread := some Spread.Pad,
    gradient := some ⟨[⟨1, ⟨255, 0, 255, 0⟩⟩]⟩ }

/-- A fully-populated path used to instantiate C10. -/
def exTruthyPath : PathData :=
  ⟨[⟨PathType.Line, some [3, 4], some [0, 0, 0, 0], some [0, 0, 0, 0, 0, 0],
    some [0, 0, 0, 0, 0]⟩]⟩

theorem claim10_idempotent_witness :
    _fix_src (_fix_src exTruthySrc) = _fix_src exTruthySrc ∧
    srcAllTruthy exTruthySrc = true ∧ _fix_src exTruthySrc = exTruthySrc ∧
    pathAllTruthy exTruthyPath = true ∧ _fix_path exTruthyPath = exTruthyPath :=
  ⟨claim10_idempotent.1 exTruthySrc, by decide,
    claim10_idempotent.2.2.1 exTruthySrc (by decide), by decide,
    claim10_idempotent.2.2.2 exTruthyPath (by decide)⟩

/- ## Surface handle registry (src/mod/lib.ts lines 4-12)

`DRAW_TARGETS` is a JavaScript `Set<number>`, modelled as a `Finset Nat`
(a JS Set holds each value at most once, so two live ids can never be equal).
`getNewID` is the loop `let id = 0; while (DRAW_TARGETS.has(id)) id++;
return id;`.  The loop is embedded with explicit fuel; `s.card + 1`
iterations always suffice, because among `0 .. s.card` at least one number is
not in `s`. -/

/-- The body of the `while` loop of lib.ts `getNewID`, with fuel. -/
def getNewIDGo (s : Finset Nat) : Nat → Nat → Nat
  | 0, id => id
  | fuel + 1, id => if id ∈ s then getNewIDGo s fuel (id + 1) else id

/-- lib.ts lines 6-12, `getNewID`: first id from 0 upward not in the live
set. -/
def getNewID (s : Finset Nat) : Nat :=
  getNewIDGo s (s.card + 1) 0

theorem getNewIDGo_spec (s : Finset Nat) :
    ∀ fuel id : Nat, (∃ j, id ≤ j ∧ j < id + fuel ∧ j ∉ s) →
      getNewIDGo s fuel id ∉ s ∧ id ≤ getNewIDGo s fuel id ∧
        ∀ k, id ≤ k → k < getNewIDGo s fuel id → k ∈ s := by
  intro fuel
  induction fuel with
  | zero =>
    rintro id ⟨j, h1, h2, -⟩
    omega
  | succ n ih =>
    rintro id ⟨j, hj1, hj2, hj3⟩
    by_cases hmem : id ∈ s
    · have hne : j ≠ id := fun h => hj3 (h ▸ hmem)
      have hrec := ih (id + 1) ⟨j, by omega, by omega, hj3⟩
      simp only [getNewIDGo, if_pos hmem]
      refine ⟨hrec.1, by omega, fun k hk1 hk2 => ?_⟩
      rcases Nat.eq_or_lt_of_le hk1 with h | h
      · exact h ▸ hmem
      · exact hrec.2.2 k (by omega) hk2
    · simp only [getNewIDGo, if_neg hmem]
      exact ⟨hmem, Nat.le_refl id, fun k hk1 hk2 => absurd hk2 (by omega)⟩

theorem exists_fresh (s : Finset Nat) : ∃ j, j ≤ s.card ∧ j ∉ s := by
  by_contra h
  push_neg at h
  have hsub : Finset.range (s.card + 1) ⊆ s := by
    intro x hx
    have hx2 := Finset.mem_range.mp hx
    exact h x (by omega)
  have hcard := Finset.card_le_card hsub
  rw [Finset.card_range] at hcard
  omega

/-- C3: `getNewID` returns the smallest non-negative integer not in the live
set, so in particular never an id that is already live; inserting the returned
id therefore grows a set of pairwise-distinct live ids by one, which is why no
two live ids are ever equal under any allocate/release sequence (the live set
is a `Finset`, exactly like the JavaScript `Set`). -/
theorem claim3_registry (s : Finset Nat) :
    getNewID s ∉ s ∧ (∀ k, k < getNewID s → k ∈ s) ∧
      (insert (getNewID s) s).card = s.card + 1 := by
  obtain ⟨j, hj1, hj2⟩ := exists_fresh s
  have h := getNewIDGo_spec s (s.card + 1) 0 ⟨j, Nat.zero_le j, by omega, hj2⟩
  exact ⟨h.1, fun k hk => h.2.2 k (Nat.zero_le k) hk,
    Finset.card_insert_of_not_mem h.1⟩

/-- A concrete live-id set used to instantiate C3. -/
def exSet : Finset Nat := {0, 1, 3}

theorem claim3_registry_witness :
    getNewID exSet ∉ exSet ∧ (1 : Nat) ∈ exSet ∧
      (insert (getNewID exSet) exSet).card = exSet.card + 1 :=
  ⟨(claim3_registry exSet).1,
    (claim3_registry exSet).2.1 1 (by decide),
    (claim3_registry exSet).2.2⟩

/- ## Dispatch layer (src/mod/ops.ts)

The opcodes are numbers bound once at start-up by destructuring
`Deno.core.ops()` (ops.ts lines 19-40); distinct names are bound to distinct
op numbers, so the table is modelled as an inductive type.  One
`Deno.core.dispatch(op, ...encodedArgs)` invocation is modelled as a
`ChannelCall` recording the opcode and the structured arguments in dispatch
order (the byte encoding of each argument is the codec's job and preserves
the count and order of the arguments). -/

/-- The opcode table destructured at ops.ts lines 19-40. -/
inductive OpName
  | op_new_draw_target | op_dt_get_data | op_dt_fill_rect | op_dt_fill
  | op_dt_stroke | op_dt_write_png | op_dt_clear | op_dt_height | op_dt_width
  | op_dt_encode | op_dt_draw_image_at | op_dt_draw_image_with_size_at
  | op_dt_destroy | op_dt_set_transform | op_dt_push_layer | op_dt_pop_layer
  | op_dt_push_layer_with_blend | op_dt_pop_clip | op_dt_push_clip
  | op_dt_push_clip_rect
  deriving DecidableEq

/-- One argument passed to `dispatch`, before byte encoding. -/
inductive Arg
  | num (n : Int)
  | text (s : String)
  | path (p : PathData)
  | src (s : ISource)
  | strokeStyle (st : StrokeStyle)
  | bytes (b : List Nat)
  deriving DecidableEq

/-- One `Deno.core.dispatch` invocation: opcode plus arguments in order. -/
structure ChannelCall where
  op : OpName
  args : List Arg
  deriving DecidableEq

/-- ops.ts lines 85-91 `new_draw_target`: the single call it dispatches. -/
def new_draw_target_call (id width height : Int) : ChannelCall :=
  ⟨OpName.op_new_draw_target, [Arg.num id, Arg.num width, Arg.num height]⟩

/-- ops.ts lines 116-119 `dt_fill`: the single call it dispatches. -/
def dt_fill_call (id : Int) (path : PathData) (src : ISource) : ChannelCall :=
  ⟨OpName.op_dt_fill, [Arg.num id, Arg.path (_fix_path path), Arg.src (_fix_src src)]⟩

/-- ops.ts lines 121-135 `dt_stroke`: the single call it dispatches.  The
dispatch order in the source is `id, _fix_path(path), _fix_src(src), stroke`
(source before stroke). -/
def dt_stroke_call (id : Int) (path : PathData) (stroke : StrokeStyle)
    (src : ISource) : ChannelCall :=
  ⟨OpName.op_dt_stroke,
    [Arg.num id, Arg.path (_fix_path path), Arg.src (_fix_src src),
      Arg.strokeStyle stroke]⟩

/-- ops.ts lines 148-151 `dt_destroy`: the single call it dispatches. -/
def dt_destroy_call (id : Int) : ChannelCall :=
  ⟨OpName.op_dt_destroy, [Arg.num id]⟩

/-- ops.ts lines 221-223 `dt_push_clip`: the single call it dispatches.  The
source reads `dispatch_data(op_dt_pop_clip, id, _fix_path(path))` — the
opcode named there is `op_dt_pop_clip`. -/
def dt_push_clip_call (id : Int) (path : PathData) : ChannelCall :=
  ⟨OpName.op_dt_pop_clip, [Arg.num id, Arg.path (_fix_path path)]⟩

/-- ops.ts lines 235-237 `dt_pop_clip`: the single call it dispatches. -/
def dt_pop_clip_call (id : Int) : ChannelCall :=
  ⟨OpName.op_dt_pop_clip, [Arg.num id]⟩

/-- A small concrete path (the triangle of test.ts lines 28-31). -/
def examplePath : PathData :=
  ⟨[⟨PathType.Move, some [100, 100], none, none, none⟩,
    ⟨PathType.Line, some [300, 300], none, none, none⟩,
    ⟨PathType.Line, some [200, 300], none, none, none⟩]⟩

/-- A concrete solid source (test.ts line 40). -/
def exampleSrc : ISource :=
  { src_type := SourceType.Solid, color := some ⟨128, 0, 0, 128⟩ }

/-- The concrete stroke style of test.ts lines 32-39. -/
def exampleStroke : StrokeStyle :=
  ⟨10, LineCap.Round, LineJoin.Round, 2, [10, 18], 16⟩

/-- C1 (falsified by the code): `dt_push_clip` does not dispatch the
push-clip opcode — it dispatches `op_dt_pop_clip`, the same opcode as
`dt_pop_clip`; and `dt_stroke` dispatches its arguments in the order
(id, path, source, stroke), not the order (id, path, stroke, source) given
by the external-interface table. -/
theorem claim1_opcode_and_order :
    (dt_push_clip_call 0 examplePath).op = OpName.op_dt_pop_clip ∧
    (dt_push_clip_call 0 examplePath).op ≠ OpName.op_dt_push_clip ∧
    (dt_push_clip_call 0 examplePath).op = (dt_pop_clip_call 0).op ∧
    (dt_stroke_call 0 examplePath exampleStroke exampleSrc).args =
      [Arg.num 0, Arg.path (_fix_path examplePath), Arg.src (_fix_src exampleSrc),
        Arg.strokeStyle exampleStroke] ∧
    (dt_stroke_call 0 examplePath exampleStroke exampleSrc).args ≠
      [Arg.num 0, Arg.path (_fix_path examplePath), Arg.strokeStyle exampleStroke,
        Arg.src (_fix_src exampleSrc)] := by
  refine ⟨rfl, by decide, rfl, rfl, by decide⟩

/- ## Status interpretation and facade (src/mod/ops.ts, lib.ts and the
extended facade file)

Each op helper sends one call and compares the decoded response text with
`"0"` (e.g. ops.ts lines 90, 116-118, 148-150).  The far-side response is a
parameter here: each facade function takes the decoded status text of the one
call it issues, and returns its result together with the list of channel
calls it issued and the updated live-id set, so that the claims about
"no call issued" and "live set unchanged" are about the function itself. -/

/-- ops.ts line 90 / 118 / 150 etc.: a call succeeded iff the decoded
response text is the literal string "0". -/
def status_ok (status : String) : Bool :=
  status == "0"

/-- lib.ts lines 19-26, `DrawTarget` constructor: pick a fresh id, issue the
single create call, throw `Failed to create DrawTarget` when the status is
not success (the id is added to `DRAW_TARGETS` only after this check), else
register the id as live.  Returns (result, calls issued, new live set). -/
def DrawTarget_new (s : Finset Nat) (width height : Int) (status : String) :
    Except String Nat × List ChannelCall × Finset Nat :=
  let id := getNewID s
  if status_ok status then
    (Except.ok id, [new_draw_target_call (Int.ofNat id) width height], insert id s)
  else
    (Except.error "Failed to create DrawTarget",
      [new_draw_target_call (Int.ofNat id) width height], s)

/-- Extended facade, `destroy` (cited as test.ts lines 112-116): issue the
single destroy call; on success delete the id from the live set, on failure
leave it; return the boolean. -/
def DrawTarget_destroy (s : Finset Nat) (id : Nat) (status : String) :
    Bool × List ChannelCall × Finset Nat :=
  if status_ok status then
    (true, [dt_destroy_call (Int.ofNat id)], s.erase id)
  else
    (false, [dt_destroy_call (Int.ofNat id)], s)

/-- lib.ts lines 37-41, `DrawTarget.fill`: unconditionally issue the single
`dt_fill` call (the method consults no liveness state), and throw the fixed
message `Failed to fill` when the status is not success. -/
def DrawTarget_fill (s : Finset Nat) (id : Nat) (path : PathData)
    (src : ISource) (status : String) :
    Except String Unit × List ChannelCall × Finset Nat :=
  (if status_ok status then Except.ok () else Except.error "Failed to fill",
    [dt_fill_call (Int.ofNat id) path src], s)

/-- C4: a failed creation call reports the failure and leaves the live-id set
unchanged (the freshly chosen id is not registered); a successful destroy
removes the id from the live set; a failed destroy leaves the live set
unchanged, so the id stays allocated. -/
theorem claim4_lifecycle (s : Finset Nat) (w h : Int) (id : Nat) (st : String) :
    (st ≠ "0" →
      DrawTarget_new s w h st =
        (Except.error "Failed to create DrawTarget",
          [new_draw_target_call (Int.ofNat (getNewID s)) w h], s)) ∧
    (DrawTarget_destroy s id "0" =
      (true, [dt_destroy_call (Int.ofNat id)], s.erase id) ∧
      id ∉ (DrawTarget_destroy s id "0").2.2) ∧
    (st ≠ "0" →
      DrawTarget_destroy s id st =
        (false, [dt_destroy_call (Int.ofNat id)], s)) := by
  refine ⟨fun hne => ?_, ⟨rfl, Finset.not_mem_erase id s⟩, fun hne => ?_⟩
  · have : status_ok st = false := by
      simp [status_ok, hne]
    simp [DrawTarget_new, this]
  · have : status_ok st = false := by
      simp [status_ok, hne]
    simp [DrawTarget_destroy, this]

theorem claim4_lifecycle_witness :
    DrawTarget_new ∅ 400 400 "some engine failure" =
      (Except.error "Failed to create DrawTarget",
        [new_draw_target_call 0 400 400], ∅) ∧
    DrawTarget_destroy {0} 0 "0" = (true, [dt_destroy_call 0], Finset.erase {0} 0) ∧
    DrawTarget_destroy {0} 0 "some engine failure" =
      (false, [dt_destroy_call 0], {0}) :=
  ⟨(claim4_lifecycle ∅ 400 400 0 "some engine failure").1 (by decide),
    ((claim4_lifecycle {0} 400 400 0 "some engine failure").2.1).1,
    (claim4_lifecycle {0} 400 400 0 "some engine failure").2.2 (by decide)⟩

/-- C5 as stated is false: after a successful create of id 0 and a successful
destroy of id 0 (so 0 is no longer live), a `fill` on the stale handle still
issues its channel call — the call list is not empty, and with a success
status the operation even reports success instead of failing fast. -/
theorem claim5_counterexample :
    0 ∉ (DrawTarget_destroy (DrawTarget_new ∅ 400 400 "0").2.2 0 "0").2.2 ∧
    (DrawTarget_fill (DrawTarget_destroy (DrawTarget_new ∅ 400 400 "0").2.2 0 "0").2.2
        0 examplePath exampleSrc "0").2.1 =
      [dt_fill_call 0 examplePath exampleSrc] ∧
    (DrawTarget_fill (DrawTarget_destroy (DrawTarget_new ∅ 400 400 "0").2.2 0 "0").2.2
        0 examplePath exampleSrc "0").1 = Except.ok () := by
  refine ⟨by decide, rfl, rfl⟩

/-- C5 amended: a drawing operation on a handle that is not live does not
fail fast locally — it issues its one channel call exactly as for a live
handle (the method consults no liveness state), and it succeeds whenever the
far side reports success. -/
theorem claim5_amended (s : Finset Nat) (id : Nat) (p : PathData) (src : ISource)
    (st : String) (hdead : id ∉ s) :
    (DrawTarget_fill s id p src st).2.1 = [dt_fill_call (Int.ofNat id) p src] ∧
    (st = "0" → (DrawTarget_fill s id p src st).1 = Except.ok ()) := by
  refine ⟨rfl, fun h0 => ?_⟩
  simp [DrawTarget_fill, status_ok, h0]

theorem claim5_amended_witness :
    (0 : Nat) ∉ (∅ : Finset Nat) ∧
    (DrawTarget_fill ∅ 0 examplePath exampleSrc "0").2.1 =
      [dt_fill_call 0 examplePath exampleSrc] ∧
    (DrawTarget_fill ∅ 0 examplePath exampleSrc "0").1 = Except.ok () :=
  ⟨by decide, (claim5_amended ∅ 0 examplePath exampleSrc "0" (by decide)).1,
    (claim5_amended ∅ 0 examplePath exampleSrc "0" (by decide)).2 rfl⟩

/-- C9 as stated is false: two different non-"0" status detail strings
produce byte-for-byte identical outcomes for the caller, so the exact detail
string is not carried to the caller — it is discarded when the ops layer
collapses the status to a boolean and the facade throws the fixed message
`Failed to fill`. -/
theorem claim9_counterexample :
    DrawTarget_fill ∅ 0 examplePath exampleSrc "engine error A" =
      DrawTarget_fill ∅ 0 examplePath exampleSrc "engine error B" ∧
    "engine error A" ≠ "engine error B" := by
  refine ⟨rfl, by decide⟩

/-- C9 amended: a non-"0" status is surfaced to the immediate caller as an
operation failure — but carrying only the fixed message `Failed to fill`,
not the status detail string — and the live-id set is unchanged, so the
surface remains live. -/
theorem claim9_amended (s : Finset Nat) (id : Nat) (p : PathData) (src : ISource)
    (st : String) (hne : st ≠ "0") :
    (DrawTarget_fill s id p src st).1 = Except.error "Failed to fill" ∧
    (DrawTarget_fill s id p src st).2.2 = s := by
  have : status_ok st = false := by
    simp [status_ok, hne]
  simp [DrawTarget_fill, this]

theorem claim9_amended_witness :
    (DrawTarget_fill {0} 0 examplePath exampleSrc "engine error A").1 =
      Except.error "Failed to fill" ∧
    (DrawTarget_fill {0} 0 examplePath exampleSrc "engine error A").2.2 = {0} :=
  claim9_amended {0} 0 examplePath exampleSrc "engine error A" (by decide)

/- ## Text codec (ops.ts lines 42-43: `new TextEncoder()`,
`new TextDecoder("utf-8")`)

These are the platform codec objects; their behaviour is fixed by the WHATWG
Encoding standard.  A JavaScript string is a sequence of UTF-16 code units
(naturals below 0x10000, lone surrogates allowed), modelled as `List Nat`.

`TextEncoder.encode` converts the code-unit sequence to scalar values
(pairing surrogates; a lone surrogate becomes U+FFFD) and UTF-8-encodes each
scalar.  `TextDecoder("utf-8").decode` (default options) strips a leading
EF BB BF byte-order mark, runs the UTF-8 decoder (emitting U+FFFD on error),
and serializes the scalars back to UTF-16 code units. -/

/-- Convert a UTF-16 code-unit sequence to scalar values: a high surrogate
followed by a low surrogate forms one supplementary scalar; a lone surrogate
becomes U+FFFD; every other unit is its own scalar. -/
def toScalars : List Nat → List Nat
  | [] => []
  | [u] => if 0xD800 ≤ u ∧ u ≤ 0xDFFF then [0xFFFD] else [u]
  | u :: v :: rest =>
    if 0xD800 ≤ u ∧ u ≤ 0xDBFF then
      if 0xDC00 ≤ v ∧ v ≤ 0xDFFF then
        (0x10000 + (u - 0xD800) * 0x400 + (v - 0xDC00)) :: toScalars rest
      else
        0xFFFD :: toScalars (v :: rest)
    else if 0xDC00 ≤ u ∧ u ≤ 0xDFFF then
      0xFFFD :: toScalars (v :: rest)
    else
      u :: toScalars (v :: rest)

/-- UTF-8 encoding of one scalar value (1 to 4 bytes). -/
def utf8EncodeScalar (c : Nat) : List Nat :=
  if c < 0x80 then [c]
  else if c < 0x800 then [0xC0 + c / 0x40, 0x80 + c % 0x40]
  else if c < 0x10000 then
    [0xE0 + c / 0x1000, 0x80 + (c / 0x40) % 0x40, 0x80 + c % 0x40]
  else
    [0xF0 + c / 0x40000, 0x80 + (c / 0x1000) % 0x40, 0x80 + (c / 0x40) % 0x40,
      0x80 + c % 0x40]

/-- UTF-8 encoding of a scalar sequence. -/
def encodeScalars : List Nat → List Nat
  | [] => []
  | c :: cs => utf8EncodeScalar c ++ encodeScalars cs

/-- The full `TextEncoder.encode`: code units to scalars to UTF-8 bytes. -/
def encode_text (s : List Nat) : List Nat :=
  encodeScalars (toScalars s)

/-- The WHATWG UTF-8 decoder (non-fatal mode): bytes to scalar values,
emitting U+FFFD at each error.  The lower/upper boundaries of the first
continuation byte depend on the lead byte (E0/ED and F0/F4 rows); on an
invalid continuation byte the offending byte is reprocessed from the initial
state, and a truncated sequence at end of stream yields one U+FFFD. -/
def utf8Decode : List Nat → List Nat
  | [] => []
  | [b] => if b ≤ 0x7F then [b] else [0xFFFD]
  | b :: b2 :: bs =>
    if b ≤ 0x7F then b :: utf8Decode (b2 :: bs)
    else if 0xC2 ≤ b ∧ b ≤ 0xDF then
      if 0x80 ≤ b2 ∧ b2 ≤ 0xBF then
        ((b - 0xC0) * 0x40 + (b2 - 0x80)) :: utf8Decode bs
      else 0xFFFD :: utf8Decode (b2 :: bs)
    else if 0xE0 ≤ b ∧ b ≤ 0xEF then
      if (if b = 0xE0 then 0xA0 else 0x80) ≤ b2 ∧ b2 ≤ (if b = 0xED then 0x9F else 0xBF) then
        match bs with
        | [] => [0xFFFD]
        | b3 :: bs2 =>
          if 0x80 ≤ b3 ∧ b3 ≤ 0xBF then
            ((b - 0xE0) * 0x1000 + (b2 - 0x80) * 0x40 + (b3 - 0x80)) :: utf8Decode bs2
          else 0xFFFD :: utf8Decode (b3 :: bs2)
      else 0xFFFD :: utf8Decode (b2 :: bs)
    else if 0xF0 ≤ b ∧ b ≤ 0xF4 then
      if (if b = 0xF0 then 0x90 else 0x80) ≤ b2 ∧ b2 ≤ (if b = 0xF4 then 0x8F else 0xBF) then
        match bs with
        | [] => [0xFFFD]
        | b3 :: bs2 =>
          if 0x80 ≤ b3 ∧ b3 ≤ 0xBF then
            match bs2 with
            | [] => [0xFFFD]
            | b4 :: bs3 =>
              if 0x80 ≤ b4 ∧ b4 ≤ 0xBF then
                ((b - 0xF0) * 0x40000 + (b2 - 0x80) * 0x1000 + (b3 - 0x80) * 0x40 +
                  (b4 - 0x80)) :: utf8Decode bs3
              else 0xFFFD :: utf8Decode (b4 :: bs3)
          else 0xFFFD :: utf8Decode (b3 :: bs2)
      else 0xFFFD :: utf8Decode (b2 :: bs)
    else 0xFFFD :: utf8Decode (b2 :: bs)

/-- Serialize one scalar back to UTF-16 code units (a supplementary scalar
becomes a surrogate pair). -/
def toCodeUnits (c : Nat) : List Nat :=
  if c < 0x10000 then [c]
  else [0xD800 + (c - 0x10000) / 0x400, 0xDC00 + (c - 0x10000) % 0x400]

/-- Serialize a scalar sequence to UTF-16 code units. -/
def scalarsToUnits : List Nat → List Nat
  | [] => []
  | c :: cs => toCodeUnits c ++ scalarsToUnits cs

/-- The full `TextDecoder("utf-8").decode` with default options: strip a
leading byte-order mark, UTF-8-decode, serialize to code units. -/
def decode_text (bs : List Nat) : List Nat :=
  scalarsToUnits (utf8Decode (if bs.take 3 = [0xEF, 0xBB, 0xBF] then bs.drop 3 else bs))

/-- A code-unit sequence is well formed when every high surrogate is
immediately followed by a low surrogate, no lone low surrogate occurs, and
every unit is below 0x10000. -/
def wellFormed : List Nat → Bool
  | [] => true
  | [u] => decide (u < 0x10000) && !(decide (0xD800 ≤ u) && decide (u ≤ 0xDFFF))
  | u :: v :: rest =>
    if 0xD800 ≤ u ∧ u ≤ 0xDBFF then
      (decide (0xDC00 ≤ v) && decide (v ≤ 0xDFFF)) && wellFormed rest
    else
      (decide (u < 0x10000) && !(decide (0xDC00 ≤ u) && decide (u ≤ 0xDFFF))) &&
        wellFormed (v :: rest)

/- ## Buffer-returning operations (ops.ts `dt_get_data` lines 93-97 and
`dt_encode` lines 159-163)

Both receive a raw byte buffer from `dispatch`.  `dt_get_data` returns
nothing when the buffer is a single byte decoding to the text "1"
(`data.length == 1 && decoder.decode(data) == "1"`); `dt_encode`'s guard is
`res.length == 0 && decoder.decode(res) == "n"`.  The text "1" is the code
unit 0x31 and "n" is 0x6E. -/

/-- ops.ts lines 93-97, `dt_get_data`, applied to the response buffer. -/
def dt_get_data (resp : List Nat) : Option (List Nat) :=
  if resp.length = 1 ∧ decode_text resp = [0x31] then none else some resp

/-- ops.ts lines 159-163, `dt_encode`, applied to the response buffer. -/
def dt_encode (resp : List Nat) : Option (List Nat) :=
  if resp.length = 0 ∧ decode_text resp = [0x6E] then none else some resp

theorem utf8Decode_ascii (b : Nat) (l : List Nat) (hb : b ≤ 0x7F) :
    utf8Decode (b :: l) = b :: utf8Decode l := by
  cases l with
  | nil => rw [utf8Decode.eq_def]; simp [hb]; rfl
  | cons x xs => rw [utf8Decode.eq_def]; simp [hb]

theorem utf8Decode_two (b b2 : Nat) (l : List Nat)
    (h1 : 0xC2 ≤ b) (h2 : b ≤ 0xDF) (h3 : 0x80 ≤ b2) (h4 : b2 ≤ 0xBF) :
    utf8Decode (b :: b2 :: l) = ((b - 0xC0) * 0x40 + (b2 - 0x80)) :: utf8Decode l := by
  have hna : ¬ b ≤ 0x7F := by omega
  rw [utf8Decode.eq_def]
  simp [hna, h1, h2, h3, h4]

theorem utf8Decode_three (b b2 b3 : Nat) (l : List Nat)
    (h1 : 0xE0 ≤ b) (h2 : b ≤ 0xEF)
    (h3 : (if b = 0xE0 then 0xA0 else 0x80) ≤ b2)
    (h4 : b2 ≤ (if b = 0xED then 0x9F else 0xBF))
    (h5 : 0x80 ≤ b3) (h6 : b3 ≤ 0xBF) :
    utf8Decode (b :: b2 :: b3 :: l) =
      ((b - 0xE0) * 0x1000 + (b2 - 0x80) * 0x40 + (b3 - 0x80)) :: utf8Decode l := by
  have hna : ¬ b ≤ 0x7F := by omega
  have hnb : ¬ (0xC2 ≤ b ∧ b ≤ 0xDF) := by omega
  rw [utf8Decode.eq_def]
  simp [hna, hnb, h1, h2, h3, h4, h5, h6]

theorem utf8Decode_four (b b2 b3 b4 : Nat) (l : List Nat)
    (h1 : 0xF0 ≤ b) (h2 : b ≤ 0xF4)
    (h3 : (if b = 0xF0 then 0x90 else 0x80) ≤ b2)
    (h4 : b2 ≤ (if b = 0xF4 then 0x8F else 0xBF))
    (h5 : 0x80 ≤ b3) (h6 : b3 ≤ 0xBF) (h7 : 0x80 ≤ b4) (h8 : b4 ≤ 0xBF) :
    utf8Decode (b :: b2 :: b3 :: b4 :: l) =
      ((b - 0xF0) * 0x40000 + (b2 - 0x80) * 0x1000 + (b3 - 0x80) * 0x40 +
        (b4 - 0x80)) :: utf8Decode l := by
  have hna : ¬ b ≤ 0x7F := by omega
  have hnb : ¬ (0xC2 ≤ b ∧ b ≤ 0xDF) := by omega
  have hnc : ¬ (0xE0 ≤ b ∧ b ≤ 0xEF) := by omega
  rw [utf8Decode.eq_def]
  simp [hna, hnb, hnc, h1, h2, h3, h4, h5, h6, h7, h8]

set_option maxRecDepth 4000 in
theorem utf8Decode_encodeScalar (c : Nat) (hc : c < 0x110000)
    (hs : ¬ (0xD800 ≤ c ∧ c ≤ 0xDFFF)) (l : List Nat) :
    utf8Decode (utf8EncodeScalar c ++ l) = c :: utf8Decode l := by
  by_cases ha : c < 0x80
  · have he : utf8EncodeScalar c = [c] := by simp [utf8EncodeScalar, ha]
    rw [he, List.cons_append, List.nil_append, utf8Decode_ascii c l (by omega)]
  · by_cases hb : c < 0x800
    · have he : utf8EncodeScalar c = [0xC0 + c / 0x40, 0x80 + c % 0x40] := by
        simp [utf8EncodeScalar, ha, hb]
      rw [he]
      simp only [List.cons_append, List.nil_append]
      rw [utf8Decode_two _ _ _ (by omega) (by omega) (by omega) (by omega)]
      congr 1
      omega
    · by_cases hd : c < 0x10000
      · have he : utf8EncodeScalar c =
            [0xE0 + c / 0x1000, 0x80 + (c / 0x40) % 0x40, 0x80 + c % 0x40] := by
          simp [utf8EncodeScalar, ha, hb, hd]
        rw [he]
        simp only [List.cons_append, List.nil_append]
        rw [utf8Decode_three _ _ _ _ (by omega) (by omega) ?_ ?_ (by omega) (by omega)]
        · congr 1
          omega
        · split <;> omega
        · split <;> omega
      · have he : utf8EncodeScalar c =
            [0xF0 + c / 0x40000, 0x80 + (c / 0x1000) % 0x40, 0x80 + (c / 0x40) % 0x40,
              0x80 + c % 0x40] := by
          simp [utf8EncodeScalar, ha, hb, hd]
        rw [he]
        simp only [List.cons_append, List.nil_append]
        rw [utf8Decode_four _ _ _ _ _ (by omega) (by omega) ?_ ?_ (by omega) (by omega)
          (by omega) (by omega)]
        · congr 1
          omega
        · split <;> omega
        · split <;> omega

theorem utf8Decode_encodeScalars (cs : List Nat)
    (h : ∀ c ∈ cs, c < 0x110000 ∧ ¬ (0xD800 ≤ c ∧ c ≤ 0xDFFF)) :
    utf8Decode (encodeScalars cs) = cs := by
  induction cs with
  | nil => rfl
  | cons c cs ih =>
    have hc := h c (List.mem_cons_self c cs)
    rw [encodeScalars, utf8Decode_encodeScalar c hc.1 hc.2,
      ih fun x hx => h x (List.mem_cons_of_mem c hx)]

theorem toScalars_spec (s : List Nat) (h : wellFormed s = true) :
    (∀ c ∈ toScalars s, c < 0x110000 ∧ ¬ (0xD800 ≤ c ∧ c ≤ 0xDFFF)) ∧
      scalarsToUnits (toScalars s) = s := by
  induction s using toScalars.induct with
  | case1 =>
    exact ⟨by simp [toScalars], rfl⟩
  | case2 u hu =>
    rw [wellFormed] at h
    simp only [Bool.and_eq_true, Bool.not_eq_true', Bool.and_eq_false_iff,
      decide_eq_true_eq, decide_eq_false_iff_not] at h
    omega
  | case3 u hu =>
    rw [wellFormed] at h
    simp only [Bool.and_eq_true, Bool.not_eq_true', Bool.and_eq_false_iff,
      decide_eq_true_eq, decide_eq_false_iff_not] at h
    rw [toScalars, if_neg hu]
    refine ⟨fun c hc => ?_, ?_⟩
    · simp only [List.mem_singleton] at hc
      exact ⟨by omega, by omega⟩
    · rw [scalarsToUnits, scalarsToUnits, toCodeUnits, if_pos (by omega), List.append_nil]
  | case4 u v rest hu hv ih =>
    rw [wellFormed, if_pos hu] at h
    simp only [Bool.and_eq_true, decide_eq_true_eq] at h
    have ihr := ih h.2
    rw [toScalars, if_pos hu, if_pos hv]
    refine ⟨fun c hc => ?_, ?_⟩
    · rcases List.mem_cons.mp hc with hc | hc
      · exact ⟨by omega, by omega⟩
      · exact ihr.1 c hc
    · rw [scalarsToUnits, ihr.2, toCodeUnits, if_neg (by omega)]
      have e1 : 0xD800 + (0x10000 + (u - 0xD800) * 0x400 + (v - 0xDC00) - 0x10000) / 0x400 = u := by
        omega
      have e2 : 0xDC00 + (0x10000 + (u - 0xD800) * 0x400 + (v - 0xDC00) - 0x10000) % 0x400 = v := by
        omega
      rw [e1, e2]
      rfl
  | case5 u v rest hu hv ih =>
    rw [wellFormed, if_pos hu] at h
    simp only [Bool.and_eq_true, decide_eq_true_eq] at h
    exact absurd h.1 hv
  | case6 u v rest hu hlow ih =>
    rw [wellFormed, if_neg hu] at h
    simp only [Bool.and_eq_true, Bool.not_eq_true', Bool.and_eq_false_iff,
      decide_eq_true_eq, decide_eq_false_iff_not] at h
    omega
  | case7 u v rest hu hlow ih =>
    rw [wellFormed, if_neg hu] at h
    simp only [Bool.and_eq_true, Bool.not_eq_true', Bool.and_eq_false_iff,
      decide_eq_true_eq, decide_eq_false_iff_not] at h
    have ihr := ih h.2
    rw [toScalars, if_neg hu, if_neg hlow]
    refine ⟨fun c hc => ?_, ?_⟩
    · rcases List.mem_cons.mp hc with hc | hc
      · exact ⟨by omega, by omega⟩
      · exact ihr.1 c hc
    · rw [scalarsToUnits, ihr.2, toCodeUnits, if_pos (by omega)]
      rfl

theorem take3_ne_bom (c : Nat) (hc : c < 0x110000) (hf : c ≠ 0xFEFF)
    (r : List Nat) :
    (utf8EncodeScalar c ++ r).take 3 ≠ [0xEF, 0xBB, 0xBF] := by
  by_cases h1 : c < 0x80
  · have he : utf8EncodeScalar c = [c] := by simp [utf8EncodeScalar, h1]
    rw [he]
    simp only [List.cons_append, List.nil_append, List.take_succ_cons]
    intro hcontra
    simp only [List.cons.injEq] at hcontra
    exact absurd hcontra.1 (by omega)
  · by_cases h2 : c < 0x800
    · have he : utf8EncodeScalar c = [0xC0 + c / 0x40, 0x80 + c % 0x40] := by
        simp [utf8EncodeScalar, h1, h2]
      rw [he]
      simp only [List.cons_append, List.nil_append, List.take_succ_cons]
      intro hcontra
      simp only [List.cons.injEq] at hcontra
      exact absurd hcontra.1 (by omega)
    · by_cases h3 : c < 0x10000
      · have he : utf8EncodeScalar c =
            [0xE0 + c / 0x1000, 0x80 + (c / 0x40) % 0x40, 0x80 + c % 0x40] := by
          simp [utf8EncodeScalar, h1, h2, h3]
        rw [he]
        simp only [List.cons_append, List.nil_append, List.take_succ_cons]
        intro hcontra
        simp only [List.cons.injEq] at hcontra
        obtain ⟨e1, e2, e3, -⟩ := hcontra
        omega
      · have he : utf8EncodeScalar c =
            [0xF0 + c / 0x40000, 0x80 + (c / 0x1000) % 0x40, 0x80 + (c / 0x40) % 0x40,
              0x80 + c % 0x40] := by
          simp [utf8EncodeScalar, h1, h2, h3]
        rw [he]
        simp only [List.cons_append, List.nil_append, List.take_succ_cons]
        intro hcontra
        simp only [List.cons.injEq] at hcontra
        exact absurd hcontra.1 (by omega)

theorem toScalars_head_ne (s : List Nat) (h2 : s.head? ≠ some 0xFEFF) :
    (toScalars s).head? ≠ some 0xFEFF := by
  rcases s with - | ⟨u, - | ⟨v, rest⟩⟩
  · simp [toScalars]
  · rw [toScalars]
    split
    · decide
    · simpa using h2
  · rw [toScalars]
    split
    · split
      · simp only [List.head?_cons, ne_eq, Option.some.injEq]
        omega
      · simp only [List.head?_cons, ne_eq, Option.some.injEq]
        omega
    · split
      · simp only [List.head?_cons, ne_eq, Option.some.injEq]
        omega
      · simpa using h2

theorem encode_no_bom (s : List Nat) (h : wellFormed s = true)
    (h2 : s.head? ≠ some 0xFEFF) :
    ¬ ((encode_text s).take 3 = [0xEF, 0xBB, 0xBF]) := by
  cases hts : toScalars s with
  | nil => simp [encode_text, hts, encodeScalars]
  | cons c cs =>
    have hval := (toScalars_spec s h).1 c (hts ▸ List.mem_cons_self c cs)
    have hne : c ≠ 0xFEFF := by
      have hh := toScalars_head_ne s h2
      rw [hts] at hh
      simpa using hh
    rw [encode_text, hts, encodeScalars]
    exact take3_ne_bom c hval.1 hne _

/-- C8 amended: the codec round trip is the identity on every string that
contains no lone surrogate code unit and does not begin with U+FEFF (the
encoder replaces lone surrogates with U+FFFD, and the decoder strips a
leading byte-order mark, so those strings do not survive the round trip). -/
theorem claim8_roundtrip (s : List Nat) (h1 : wellFormed s = true)
    (h2 : s.head? ≠ some 0xFEFF) :
    decode_text (encode_text s) = s := by
  have hspec := toScalars_spec s h1
  rw [decode_text, if_neg (encode_no_bom s h1 h2), encode_text,
    utf8Decode_encodeScalars (toScalars s) hspec.1, hspec.2]

/-- C8 as stated is false: the string consisting of the lone high surrogate
0xD800 is encoded as the replacement character U+FFFD, so the round trip
returns U+FFFD, not the original string. -/
theorem claim8_counterexample :
    decode_text (encode_text [0xD800]) = [0xFFFD] ∧
      decode_text (encode_text [0xD800]) ≠ [0xD800] := by
  refine ⟨by decide, by decide⟩

theorem claim8_roundtrip_witness :
    wellFormed [0x48, 0x69, 0xD83D, 0xDE00] = true ∧
    ([0x48, 0x69, 0xD83D, 0xDE00] : List Nat).head? ≠ some 0xFEFF ∧
    decode_text (encode_text [0x48, 0x69, 0xD83D, 0xDE00]) =
      [0x48, 0x69, 0xD83D, 0xDE00] :=
  ⟨by decide, by decide,
    claim8_roundtrip [0x48, 0x69, 0xD83D, 0xDE00] (by decide) (by decide)⟩

/-- C2 is violated by `dt_encode`: its "no value" guard demands an
empty buffer whose decoded text is "n", which no buffer satisfies (the empty
buffer decodes to the empty string), so `dt_encode` returns every response —
including the single-byte buffer 0x31, the byte value of "1" — as the actual
result buffer, while `dt_get_data` does treat that buffer as "no value". -/
theorem claim2_buffer_sentinel :
    dt_get_data [0x31] = none ∧ dt_encode [0x31] = some [0x31] ∧
      ∀ resp, dt_encode resp = some resp := by
  refine ⟨by decide, by decide, fun resp => ?_⟩
  rw [dt_encode, if_neg]
  rintro ⟨hlen, hdec⟩
  rw [List.length_eq_zero.mp hlen] at hdec
  exact absurd hdec (by decide)
